import Mathlib

/-!
Verification of the GTFS_Inspector core: feed decoding, flattening,
identifier sorting and the cross-referential filter engine.

The Python source (src/GTFS_Inspector.py) is shallowly embedded below.
A pandas DataFrame is modelled as an ordered list of sparse records
(association lists from column name to cell value) together with the
frame's column list; a missing key models a NaN cell.
-/

namespace GTFSInspector

/-- One flat record: a mapping from column name to scalar cell value,
in insertion order.  A column absent from the list models a null cell. -/
abbrev Record := List (String × String)

/-- A pandas DataFrame: a column list plus the ordered rows. -/
structure DataFrame where
  cols : List String
  rows : List Record
deriving DecidableEq, Repr

/-- Boolean-mask row filtering, as in `df[mask]`: keeps the columns,
keeps the matching rows in order. -/
def filterRows (df : DataFrame) (p : Record → Bool) : DataFrame :=
  { cols := df.cols, rows := df.rows.filter p }

/-- The elementwise test `df[c] == v` on one row: the cell must be
present and equal (NaN compares unequal). -/
def rowEq (c v : String) (r : Record) : Bool :=
  r.lookup c == some v

/-- The elementwise test `df[c].isin(vs)` on one row. -/
def rowIn (c : String) (vs : List String) (r : Record) : Bool :=
  match r.lookup c with
  | some x => vs.contains x
  | none => false

/-- Worker for `pdUnique`: keeps the elements not seen yet, in order. -/
def pdUniqueGo (seen : List String) : List String → List String
  | [] => []
  | x :: xs => if x ∈ seen then pdUniqueGo seen xs else x :: pdUniqueGo (x :: seen) xs

/-- `Series.unique()`: de-duplicate keeping the first occurrence. -/
def pdUnique (l : List String) : List String := pdUniqueGo [] l

/-- Python truthiness of the optional filter value: `None` and the
empty string are falsy. -/
def isTruthy : Option String → Bool
  | none => false
  | some s => s != ""

/-- Python `str.isdigit()`: non-empty and every character a digit. -/
def pyIsDigit (s : String) : Bool :=
  !s.data.isEmpty && s.data.all Char.isDigit

/-- Integer value of a digit string, models Python `int(s)` on the
strings where `smart_sort` applies it. -/
def strToNat (s : String) : Nat :=
  s.data.foldl (fun n c => n * 10 + (c.toNat - '0'.toNat)) 0

/-- Key order used by `sorted(data, key=int)`. -/
def intLe (a b : String) : Prop := strToNat a ≤ strToNat b

instance : DecidableRel intLe := fun a b =>
  inferInstanceAs (Decidable (strToNat a ≤ strToNat b))

instance : IsTotal String intLe := ⟨fun _ _ => Nat.le_total _ _⟩

instance : IsTrans String intLe := ⟨fun _ _ _ => Nat.le_trans⟩

/-- Code-point lexicographic comparison of character lists, the order
Python uses on strings. -/
def lexLeB : List Char → List Char → Bool
  | [], _ => true
  | _ :: _, [] => false
  | c :: cs, d :: ds =>
    if c.toNat < d.toNat then true
    else if d.toNat < c.toNat then false
    else lexLeB cs ds

theorem lexLeB_total : ∀ x y : List Char, lexLeB x y = true ∨ lexLeB y x = true
  | [], _ => Or.inl rfl
  | _ :: _, [] => Or.inr rfl
  | c :: cs, d :: ds => by
    rcases Nat.lt_trichotomy c.toNat d.toNat with h | h | h
    · exact Or.inl (by simp [lexLeB, h])
    · rcases lexLeB_total cs ds with ih | ih
      · exact Or.inl (by simp [lexLeB, h, ih])
      · exact Or.inr (by simp [lexLeB, h, ih])
    · exact Or.inr (by simp [lexLeB, h])

theorem lexLeB_trans : ∀ x y z : List Char,
    lexLeB x y = true → lexLeB y z = true → lexLeB x z = true
  | [], _, _, _, _ => rfl
  | _ :: _, [], _, hxy, _ => by simp [lexLeB] at hxy
  | _ :: _, _ :: _, [], _, hyz => by simp [lexLeB] at hyz
  | c :: cs, d :: ds, e :: es, hxy, hyz => by
    simp only [lexLeB] at hxy hyz ⊢
    by_cases hcd : c.toNat < d.toNat
    · by_cases hde : d.toNat < e.toNat
      · simp [show c.toNat < e.toNat by omega]
      · by_cases hed : e.toNat < d.toNat
        · simp [hde, hed] at hyz
        · simp [show c.toNat < e.toNat by omega]
    · by_cases hdc : d.toNat < c.toNat
      · simp [hcd, hdc] at hxy
      · by_cases hde : d.toNat < e.toNat
        · simp [show c.toNat < e.toNat by omega]
        · by_cases hed : e.toNat < d.toNat
          · simp [hde, hed] at hyz
          · simp [hcd, hdc] at hxy
            simp [hde, hed] at hyz
            simp [show ¬c.toNat < e.toNat by omega,
              show ¬e.toNat < c.toNat by omega]
            exact lexLeB_trans cs ds es hxy hyz

/-- Key order used by `sorted(data, key=str)` on strings: ordinal
code-point lexicographic order. -/
def strLe (a b : String) : Prop := lexLeB a.data b.data = true

instance : DecidableRel strLe := fun a b =>
  inferInstanceAs (Decidable (lexLeB a.data b.data = true))

instance : IsTotal String strLe := ⟨fun a b => lexLeB_total a.data b.data⟩

instance : IsTrans String strLe := ⟨fun a b c => lexLeB_trans a.data b.data c.data⟩

/-- `smart_sort` from the source: if every item is a digit string the
whole input is sorted by integer value, otherwise the whole input is
sorted as strings.  Python `sorted` is a stable sort, modelled by
insertion sort. -/
def smart_sort (data : List String) : List String :=
  if data.all pyIsDigit then
    List.insertionSort intLe data
  else
    List.insertionSort strLe data

/-- The trip-record side of the Trip ID branch of `get_filtered_data`:
narrow to the rows whose `tripUpdate_trip_tripId` equals the value,
skipping the narrowing when the column is absent. -/
def tripFilteredTrips (trip_data : DataFrame) (trip_id : String) : DataFrame :=
  if "tripUpdate_trip_tripId" ∈ trip_data.cols then
    filterRows trip_data (rowEq "tripUpdate_trip_tripId" trip_id)
  else trip_data

/-- The vehicle ids referenced by the kept trip records:
`filtered_trip_data['tripUpdate_vehicle_id'].dropna().unique().tolist()`
when the column exists, else `[]`. -/
def derivedVehicleIds (trip_data : DataFrame) (trip_id : String) : List String :=
  let ft := tripFilteredTrips trip_data trip_id
  if "tripUpdate_vehicle_id" ∈ ft.cols then
    pdUnique (ft.rows.filterMap (List.lookup "tripUpdate_vehicle_id"))
  else []

/-- `get_filtered_data` from the source, embedded branch by branch.
The `.copy()` calls of the source are identities on immutable values. -/
def get_filtered_data (vehicle_data trip_data : DataFrame)
    (filter_option : String) (selected_value : Option String) :
    DataFrame × DataFrame :=
  if filter_option = "Vehicle ID" then
    if isTruthy selected_value then
      let vehicle_id := selected_value.getD ""
      let fv :=
        if "vehicle_vehicle_id" ∈ vehicle_data.cols then
          filterRows vehicle_data (rowEq "vehicle_vehicle_id" vehicle_id)
        else vehicle_data
      let ft :=
        if "tripUpdate_vehicle_id" ∈ trip_data.cols then
          filterRows trip_data (rowEq "tripUpdate_vehicle_id" vehicle_id)
        else trip_data
      (fv, ft)
    else (vehicle_data, trip_data)
  else if filter_option = "Trip ID" then
    if isTruthy selected_value then
      let trip_id := selected_value.getD ""
      let ft := tripFilteredTrips trip_data trip_id
      let vehicle_ids := derivedVehicleIds trip_data trip_id
      let fv :=
        if vehicle_ids ≠ [] ∧ "vehicle_vehicle_id" ∈ vehicle_data.cols then
          filterRows vehicle_data (rowIn "vehicle_vehicle_id" vehicle_ids)
        else
          if "vehicle_trip_tripId" ∈ vehicle_data.cols then
            filterRows vehicle_data (rowEq "vehicle_trip_tripId" trip_id)
          else vehicle_data
      (fv, ft)
    else (vehicle_data, trip_data)
  else if filter_option = "Route ID" then
    if isTruthy selected_value then
      let route_id := selected_value.getD ""
      let fv :=
        if "vehicle_trip_routeId" ∈ vehicle_data.cols then
          filterRows vehicle_data (rowEq "vehicle_trip_routeId" route_id)
        else vehicle_data
      let ft :=
        if "tripUpdate_trip_routeId" ∈ trip_data.cols then
          filterRows trip_data (rowEq "tripUpdate_trip_routeId" route_id)
        else trip_data
      (fv, ft)
    else (vehicle_data, trip_data)
  else (vehicle_data, trip_data)

/-- A concrete vehicle-positions frame used in witnesses. -/
def vScenario : DataFrame :=
  ⟨["vehicle_vehicle_id", "vehicle_trip_tripId"],
   [[("vehicle_vehicle_id", "101"), ("vehicle_trip_tripId", "T1")]]⟩

/-- A concrete empty trip-updates frame (`pd.DataFrame()`): no columns,
no rows. -/
def tScenario : DataFrame := ⟨[], []⟩

/-- A vehicle frame without the vehicle-id column. -/
def vNoCol : DataFrame := ⟨["x"], [[("x", "1")]]⟩

/-- A trip frame carrying both the trip-id and the vehicle-id column. -/
def tCross : DataFrame :=
  ⟨["tripUpdate_trip_tripId", "tripUpdate_vehicle_id"],
   [[("tripUpdate_trip_tripId", "T1"), ("tripUpdate_vehicle_id", "V9")]]⟩

/-- A trip frame whose single record references vehicle "101". -/
def tKeep : DataFrame :=
  ⟨["tripUpdate_trip_tripId", "tripUpdate_vehicle_id"],
   [[("tripUpdate_trip_tripId", "T1"), ("tripUpdate_vehicle_id", "101")]]⟩

/-- A vehicle frame with a trip-id column but no vehicle-id column. -/
def vCross : DataFrame := ⟨["vehicle_trip_tripId"], [[("vehicle_trip_tripId", "T1")]]⟩

/-- The non-null de-duplicated values of one column of a frame, `[]`
when the column is absent. -/
def idsOf (df : DataFrame) (c : String) : List String :=
  if c ∈ df.cols then pdUnique (df.rows.filterMap (List.lookup c)) else []

/-- Modelled from the spec: the multi-select variant's per-kind step is
the single-value per-kind logic of `get_filtered_data` generalized from
an equality test to a set-membership test.  This variant lives in the
repository's other near-duplicate program files, which are not part of
src/. -/
def perKindMulti (v t : DataFrame) (kind : String) (values : List String) :
    DataFrame × DataFrame :=
  if kind = "Vehicle ID" then
    (if "vehicle_vehicle_id" ∈ v.cols then
      filterRows v (rowIn "vehicle_vehicle_id" values)
    else v,
    if "tripUpdate_vehicle_id" ∈ t.cols then
      filterRows t (rowIn "tripUpdate_vehicle_id" values)
    else t)
  else if kind = "Trip ID" then
    let ft :=
      if "tripUpdate_trip_tripId" ∈ t.cols then
        filterRows t (rowIn "tripUpdate_trip_tripId" values)
      else t
    let ids := idsOf ft "tripUpdate_vehicle_id"
    let fv :=
      if ids ≠ [] ∧ "vehicle_vehicle_id" ∈ v.cols then
        filterRows v (rowIn "vehicle_vehicle_id" ids)
      else if "vehicle_trip_tripId" ∈ v.cols then
        filterRows v (rowIn "vehicle_trip_tripId" values)
      else v
    (fv, ft)
  else if kind = "Route ID" then
    (if "vehicle_trip_routeId" ∈ v.cols then
      filterRows v (rowIn "vehicle_trip_routeId" values)
    else v,
    if "tripUpdate_trip_routeId" ∈ t.cols then
      filterRows t (rowIn "tripUpdate_trip_routeId" values)
    else t)
  else (v, t)

/-- Modelled from the spec: the bidirectional closure of the
multi-select variant.  Vehicle records are narrowed to those still
referenced — directly by vehicle id, or via trip id — by the surviving
trip records; trip records are narrowed to those whose vehicle appears
in the surviving vehicle records.  Closure on a side is skipped when
the cross-referenced column(s) are absent (so the closure would empty
that side for lack of information) while that side's source record set
was non-empty before filtering. -/
def multiClosure (v t fv ft : DataFrame) : DataFrame × DataFrame :=
  let skipVeh :=
    ("tripUpdate_vehicle_id" ∉ t.cols ∧ "tripUpdate_trip_tripId" ∉ t.cols) ∧
      v.rows ≠ []
  let skipTrip :=
    ("tripUpdate_vehicle_id" ∉ t.cols ∨ "vehicle_vehicle_id" ∉ v.cols) ∧
      t.rows ≠ []
  let fv' :=
    if skipVeh then fv
    else
      filterRows fv (fun r =>
        rowIn "vehicle_vehicle_id" (idsOf ft "tripUpdate_vehicle_id") r ||
          rowIn "vehicle_trip_tripId" (idsOf ft "tripUpdate_trip_tripId") r)
  let ft' :=
    if skipTrip then ft
    else filterRows ft (rowIn "tripUpdate_vehicle_id" (idsOf fv "vehicle_vehicle_id"))
  (fv', ft')

/-- Modelled from the spec: the multi-select (set-valued) filter — the
per-kind step with set-membership, followed by the bidirectional
closure; an empty selection passes both record sets through. -/
def get_filtered_data_multi (v t : DataFrame) (kind : String)
    (values : List String) : DataFrame × DataFrame :=
  if values = [] then (v, t)
  else
    multiClosure v t (perKindMulti v t kind values).1
      (perKindMulti v t kind values).2

/-- Modelled from the spec: one GTFS-Realtime entity is exactly one of
a vehicle-position or a trip-update payload. -/
inductive FeedEntity where
  | vehicle : List Nat → FeedEntity
  | tripUpdate : List Nat → FeedEntity
deriving DecidableEq

/-- Modelled from the spec: decoding one entity frame of the binary
schema.  A leading tag byte selects the payload kind (1 = vehicle
position, 2 = trip update); anything else is malformed. -/
def parseEntityBytes : List Nat → Option FeedEntity
  | 1 :: payload => some (.vehicle payload)
  | 2 :: payload => some (.tripUpdate payload)
  | _ => none

/-- Modelled from the spec: the schema decoder consumes the full
message atomically.  The message body is a length-prefixed sequence of
entity frames; every frame must decode, else the whole parse fails. -/
def parseFeedMessage : List Nat → Option (List FeedEntity)
  | [] => some []
  | n :: rest =>
    if n ≤ rest.length then
      match parseEntityBytes (rest.take n) with
      | none => none
      | some e => (parseFeedMessage (rest.drop n)).map (fun es => e :: es)
    else none
termination_by bs => bs.length
decreasing_by
  simp only [List.length_cons, List.length_drop]
  omega

/-- The wire encoding of a message: each entity frame preceded by its
length. -/
def encodeMessage (frames : List (List Nat)) : List Nat :=
  frames.flatMap (fun f => f.length :: f)

/-- All-or-nothing decode of a list of entity frames: fails if any
single frame fails. -/
def decodeEntities : List (List Nat) → Option (List FeedEntity)
  | [] => some []
  | f :: fs =>
    match parseEntityBytes f with
    | none => none
    | some e => (decodeEntities fs).map (fun es => e :: es)

/-- `open_gtfs_realtime_from_url` from the source: the fetch may fail
(`none`), and any parse failure raises inside the `try` block, caught
by the `except` which returns `None` — never a partial feed. -/
def open_gtfs_realtime_from_url (response : Option (List Nat)) :
    Option (List FeedEntity) :=
  match response with
  | none => none
  | some content => parseFeedMessage content

/-!
Entity structures, flattening and the reserved JSON column.

`MessageToDict(entity)` yields a nested key-value structure: every value
is a scalar (modelled by a string) or a nested mapping.  `JVal`/`JObj`
model that structure; `flatten_dict` mirrors the source function of the
same name; `json_dumps`/`json_loads` model the standard json library on
these structures (quotes and backslashes escaped, `": "` and `", "`
separators, as `json.dumps` emits for nested dicts).
-/

mutual
/-- A nested value of an entity structure: a scalar or a mapping. -/
inductive JVal where
  | str : String → JVal
  | obj : JObj → JVal
/-- A nested mapping of an entity structure, in insertion order. -/
inductive JObj where
  | nil : JObj
  | cons : String → JVal → JObj → JObj
end

mutual
/-- One item step of `flatten_dict`: a scalar under `key` emits
`(key, value)`; a nested dict recurses with `key` as parent. -/
def flattenVal (key : String) : JVal → List (String × String)
  | .str s => [(key, s)]
  | .obj o => flattenObj key o
/-- The item loop of `flatten_dict`: `new_key` is the bare key at top
level and `parent_key ++ sep ++ k` below, with separator "_". -/
def flattenObj (parent_key : String) : JObj → List (String × String)
  | .nil => []
  | .cons k v rest =>
    flattenVal (if parent_key = "" then k else parent_key ++ "_" ++ k) v ++
      flattenObj parent_key rest
end

/-- Python dict assignment `d[k] = v`: update in place when the key is
present, else append. -/
def dictInsert (d : List (String × String)) (k v : String) :
    List (String × String) :=
  if d.any (fun p => p.1 == k) then
    d.map (fun p => if p.1 = k then (k, v) else p)
  else d ++ [(k, v)]

/-- Python `dict(items)`: fold the pairs with dict assignment. -/
def pyDict (items : List (String × String)) : List (String × String) :=
  items.foldl (fun d p => dictInsert d p.1 p.2) []

/-- `flatten_dict` from the source: flatten the items, then build the
dict. -/
def flatten_dict (d : JObj) : List (String × String) :=
  pyDict (flattenObj "" d)

/-- JSON string escaping (model of the json library): quote and
backslash get a backslash prefix. -/
def escapeChar (c : Char) : List Char :=
  if c = '"' ∨ c = '\\' then ['\\', c] else [c]

/-- Escape every character of a string body. -/
def escapeChars (s : List Char) : List Char := s.flatMap escapeChar

mutual
/-- Model of `json.dumps` on one value, as a character list. -/
def dumpVal : JVal → List Char
  | .str s => '"' :: (escapeChars s.data ++ ['"'])
  | .obj o => '\x7b' :: (dumpObjInner o ++ ['\x7d'])
/-- The members of an object, comma-separated, without braces. -/
def dumpObjInner : JObj → List Char
  | .nil => []
  | .cons k v .nil =>
    '"' :: (escapeChars k.data ++ '"' :: ':' :: ' ' :: dumpVal v)
  | .cons k v (.cons k2 v2 rest) =>
    '"' :: (escapeChars k.data ++ '"' :: ':' :: ' ' ::
      (dumpVal v ++ ',' :: ' ' :: dumpObjInner (.cons k2 v2 rest)))
end

/-- `json.dumps(entity_dict)` for a top-level entity mapping. -/
def json_dumps (o : JObj) : String := ⟨dumpVal (.obj o)⟩

/-- `protobuf_to_dataframe` from the source: each entity is flattened,
then the reserved column `original_json` receives the serialization of
the same pre-flattening entity structure; the rows form the frame. -/
def protobuf_to_dataframe (feed : List JObj) : DataFrame :=
  let rows := feed.map (fun e =>
    dictInsert (flatten_dict e) "original_json" (json_dumps e))
  { cols := pdUnique (rows.flatMap (fun r => r.map Prod.fst)), rows := rows }

/-- JSON string-body parser (after the opening quote): collects
characters until an unescaped closing quote, undoing the escapes. -/
def parseStr : List Char → Option (List Char × List Char)
  | [] => none
  | c :: rest =>
    if c = '"' then some ([], rest)
    else if c = '\\' then
      match rest with
      | [] => none
      | e :: rest2 =>
        if e = '"' ∨ e = '\\' then
          (parseStr rest2).map (fun p => (e :: p.1, p.2))
        else none
    else (parseStr rest).map (fun p => (c :: p.1, p.2))

mutual
/-- Fuelled JSON value parser (model of `json.loads`): a quoted string
or a braced object. -/
def parseValFuel : Nat → List Char → Option (JVal × List Char)
  | 0, _ => none
  | n + 1, cs =>
    match cs with
    | [] => none
    | c :: rest =>
      if c = '"' then
        (parseStr rest).map (fun p => (JVal.str ⟨p.1⟩, p.2))
      else if c = '\x7b' then
        (parseObjFuel n rest).map (fun p => (JVal.obj p.1, p.2))
      else none
/-- Fuelled JSON object-member parser, positioned after the opening
brace: either the closing brace, or `"key": value` followed by `, `
and more members or the closing brace. -/
def parseObjFuel : Nat → List Char → Option (JObj × List Char)
  | 0, _ => none
  | n + 1, cs =>
    match cs with
    | [] => none
    | c :: rest =>
      if c = '\x7d' then some (.nil, rest)
      else if c = '"' then
        match parseStr rest with
        | none => none
        | some (k, r1) =>
          match r1 with
          | ':' :: ' ' :: r2 =>
            match parseValFuel n r2 with
            | none => none
            | some (v, r3) =>
              match r3 with
              | '\x7d' :: r4 => some (.cons ⟨k⟩ v .nil, r4)
              | ',' :: ' ' :: r4 =>
                (parseObjFuel n r4).map (fun p => (JObj.cons ⟨k⟩ v p.1, p.2))
              | _ => none
          | _ => none
      else none
end

/-- Model of `json.loads`: parse one value consuming the whole input. -/
def json_loads (s : String) : Option JVal :=
  match parseValFuel (s.data.length + 1) s.data with
  | some (v, []) => some v
  | _ => none

/-- Re-hydration of the reserved column into the entity mapping. -/
def reconstructEntity (s : String) : Option JObj :=
  match json_loads s with
  | some (.obj o) => some o
  | _ => none

mutual
/-- Node-count measure of a value, bounding the parse fuel. -/
def mVal : JVal → Nat
  | .str _ => 1
  | .obj o => mObj o + 1
/-- Node-count measure of an object. -/
def mObj : JObj → Nat
  | .nil => 1
  | .cons _ v rest => mVal v + mObj rest + 1
end

mutual
/-- The leaf scalars of a value, each with its relative path. -/
def leavesVal : JVal → List (List String × String)
  | .str s => [([], s)]
  | .obj o => leavesObj o
/-- The leaf scalars of an object, each with its relative path. -/
def leavesObj : JObj → List (List String × String)
  | .nil => []
  | .cons k v rest =>
    (leavesVal v).map (fun p => (k :: p.1, p.2)) ++ leavesObj rest
end

/-- Join path components with the fixed separator "_": `[a,b,c]`
becomes `a_b_c`. -/
def joinKey : List String → String
  | [] => ""
  | [a] => a
  | a :: b :: rest => a ++ "_" ++ joinKey (b :: rest)

/-- Character-level variant of `joinKey`. -/
def joinC : List (List Char) → List Char
  | [] => []
  | [a] => a
  | a :: b :: rest => a ++ '_' :: joinC (b :: rest)

/-- Key fold used to relate `flattenObj`'s parent-key recursion with
paths: extend a parent key along a path. -/
def extKey (key : String) (p : List String) : String :=
  p.foldl (fun acc k => acc ++ "_" ++ k) key

mutual
/-- Schema-key condition on a value: every nested mapping key is
non-empty. -/
def goodKeysVal : JVal → Bool
  | .str _ => true
  | .obj o => goodKeysObj o
/-- Schema-key condition on an object. -/
def goodKeysObj : JObj → Bool
  | .nil => true
  | .cons k v rest => (k != "") && goodKeysVal v && goodKeysObj rest
end

/-- A concrete nested entity used in witnesses. -/
def entityExample : JObj :=
  .cons "id" (.str "1")
    (.cons "vehicle"
      (.obj (.cons "trip" (.obj (.cons "tripId" (.str "T1") .nil))
        (.cons "timestamp" (.str "1700000000") .nil)))
      .nil)

/-! ## Theorems -/

/-- C1 counterexample: on the mixed set {"10", "9", "abc", "2"} the code
sorts everything as strings, yielding ["10", "2", "9", "abc"], not the
numeric-first order ["2", "9", "10", "abc"] the claim states. -/
theorem smart_sort_mixed_counterexample :
    smart_sort ["10", "9", "abc", "2"] = ["10", "2", "9", "abc"] ∧
    smart_sort ["10", "9", "abc", "2"] ≠ ["2", "9", "10", "abc"] :=
  ⟨rfl, by decide⟩

/-- C1 (amended): `smart_sort` returns a permutation of its input; when
every value is a purely-numeric digit string the output is sorted by
integer value ascending, and otherwise the whole output (numeric and
other values alike) is sorted lexicographically ascending. -/
theorem smart_sort_correct (data : List String) :
    (smart_sort data).Perm data ∧
    (data.all pyIsDigit = true → (smart_sort data).Sorted intLe) ∧
    (data.all pyIsDigit = false → (smart_sort data).Sorted strLe) := by
  refine ⟨?_, ?_, ?_⟩
  · unfold smart_sort
    split
    · exact List.perm_insertionSort intLe data
    · exact List.perm_insertionSort strLe data
  · intro h
    simp only [smart_sort, h, if_true]
    exact List.sorted_insertionSort intLe data
  · intro h
    simp only [smart_sort, h, Bool.false_eq_true, if_false]
    exact List.sorted_insertionSort strLe data

/-- Witness for C1's amended theorem at the mixed concrete input. -/
theorem smart_sort_correct_witness :
    (smart_sort ["10", "9", "abc", "2"]).Sorted strLe :=
  (smart_sort_correct ["10", "9", "abc", "2"]).2.2 (by decide)

/-- C7: an empty or absent filter value returns both record sets
deep-equal to the inputs, whatever the filter kind. -/
theorem empty_filter_identity (v t : DataFrame) (k : String)
    (s : Option String) (h : isTruthy s = false) :
    get_filtered_data v t k s = (v, t) := by
  simp [get_filtered_data, h]

/-- Witness for C7 at a concrete input. -/
theorem empty_filter_identity_witness :
    get_filtered_data vScenario tScenario "Vehicle ID" none =
      (vScenario, tScenario) :=
  empty_filter_identity vScenario tScenario "Vehicle ID" none (by decide)

/-- C8: filtering is a pure function of its arguments — identical
arguments yield identical (deep-equal) outputs, and record sets are
immutable values, so the inputs are unchanged by the call. -/
theorem filter_pure (v v' t t' : DataFrame) (k k' : String)
    (s s' : Option String) (hv : v = v') (ht : t = t') (hk : k = k')
    (hs : s = s') :
    get_filtered_data v t k s = get_filtered_data v' t' k' s' := by
  subst hv; subst ht; subst hk; subst hs; rfl

/-- Witness for C8 at a concrete input. -/
theorem filter_pure_witness :
    get_filtered_data vScenario tScenario "Trip ID" (some "T1") =
      get_filtered_data vScenario tScenario "Trip ID" (some "T1") :=
  filter_pure vScenario vScenario tScenario tScenario "Trip ID" "Trip ID"
    (some "T1") (some "T1") rfl rfl rfl rfl

/-- C10: for every filter specification (any kind, any value), each
output record set is a sublist of the corresponding input — rows are
kept verbatim in their original relative order — and the column list is
unchanged. -/
theorem filter_sublist_inv (v t : DataFrame) (k : String)
    (s : Option String) :
    (get_filtered_data v t k s).1.rows.Sublist v.rows ∧
    (get_filtered_data v t k s).1.cols = v.cols ∧
    (get_filtered_data v t k s).2.rows.Sublist t.rows ∧
    (get_filtered_data v t k s).2.cols = t.cols := by
  dsimp only [get_filtered_data, tripFilteredTrips]
  repeat' split
  all_goals
    simp_all [filterRows, List.filter_sublist, List.Sublist.refl]

/-- Branch lemma: `get_filtered_data` at kind "Trip ID" with a truthy
value, written without the intermediate `let` bindings. -/
theorem get_filtered_data_tripId_eq (v t : DataFrame) (val : String)
    (htr : isTruthy (some val) = true) :
    get_filtered_data v t "Trip ID" (some val) =
      (if derivedVehicleIds t val ≠ [] ∧ "vehicle_vehicle_id" ∈ v.cols then
        filterRows v (rowIn "vehicle_vehicle_id" (derivedVehicleIds t val))
      else if "vehicle_trip_tripId" ∈ v.cols then
        filterRows v (rowEq "vehicle_trip_tripId" val)
      else v,
      tripFilteredTrips t val) := by
  simp [get_filtered_data, htr]

/-- C3 counterexample: filtering by Vehicle ID "101" with the vehicle-id
column absent returns the vehicle record set unchanged and non-empty,
not degraded to an empty record set as the claim states. -/
theorem absent_column_counterexample :
    (get_filtered_data vNoCol tScenario "Vehicle ID" (some "101")).1 = vNoCol ∧
    vNoCol.rows ≠ [] :=
  ⟨rfl, by decide⟩

/-- C3 (amended): the filter engine is total and raises no error; when
the column relevant to the active filter kind is absent from a record
set that record set passes through unchanged (the filter is skipped),
and when the column is present but no record matches the value the
affected result degrades to an empty (but valid) record set. -/
theorem filter_soft_degrade (v t : DataFrame) (x : String) (hx : x ≠ "") :
    (("vehicle_vehicle_id" ∉ v.cols →
        (get_filtered_data v t "Vehicle ID" (some x)).1 = v) ∧
      ("vehicle_vehicle_id" ∈ v.cols →
        (∀ r ∈ v.rows, r.lookup "vehicle_vehicle_id" ≠ some x) →
        (get_filtered_data v t "Vehicle ID" (some x)).1.rows = []) ∧
      ("tripUpdate_vehicle_id" ∉ t.cols →
        (get_filtered_data v t "Vehicle ID" (some x)).2 = t) ∧
      ("tripUpdate_vehicle_id" ∈ t.cols →
        (∀ r ∈ t.rows, r.lookup "tripUpdate_vehicle_id" ≠ some x) →
        (get_filtered_data v t "Vehicle ID" (some x)).2.rows = [])) ∧
    (("vehicle_trip_routeId" ∉ v.cols →
        (get_filtered_data v t "Route ID" (some x)).1 = v) ∧
      ("vehicle_trip_routeId" ∈ v.cols →
        (∀ r ∈ v.rows, r.lookup "vehicle_trip_routeId" ≠ some x) →
        (get_filtered_data v t "Route ID" (some x)).1.rows = []) ∧
      ("tripUpdate_trip_routeId" ∉ t.cols →
        (get_filtered_data v t "Route ID" (some x)).2 = t) ∧
      ("tripUpdate_trip_routeId" ∈ t.cols →
        (∀ r ∈ t.rows, r.lookup "tripUpdate_trip_routeId" ≠ some x) →
        (get_filtered_data v t "Route ID" (some x)).2.rows = [])) ∧
    (("tripUpdate_trip_tripId" ∉ t.cols →
        (get_filtered_data v t "Trip ID" (some x)).2 = t) ∧
      ("tripUpdate_trip_tripId" ∈ t.cols →
        (∀ r ∈ t.rows, r.lookup "tripUpdate_trip_tripId" ≠ some x) →
        (get_filtered_data v t "Trip ID" (some x)).2.rows = []) ∧
      ("vehicle_vehicle_id" ∉ v.cols → "vehicle_trip_tripId" ∉ v.cols →
        (get_filtered_data v t "Trip ID" (some x)).1 = v)) := by
  have htr : isTruthy (some x) = true := by simp [isTruthy, hx]
  have hnil : ∀ (l : List Record) (c : String),
      (∀ r ∈ l, r.lookup c ≠ some x) →
      l.filter (rowEq c x) = [] := by
    intro l c hl
    rw [List.filter_eq_nil_iff]
    intro r hr
    simp [rowEq, hl r hr]
  refine ⟨⟨?_, ?_, ?_, ?_⟩, ⟨?_, ?_, ?_, ?_⟩, ⟨?_, ?_, ?_⟩⟩
  · intro h; simp [get_filtered_data, htr, h]
  · intro h hl
    simp [get_filtered_data, htr, h, filterRows, hnil v.rows _ hl]
  · intro h; simp [get_filtered_data, htr, h]
  · intro h hl
    simp [get_filtered_data, htr, h, filterRows, hnil t.rows _ hl]
  · intro h; simp [get_filtered_data, htr, h]
  · intro h hl
    simp [get_filtered_data, htr, h, filterRows, hnil v.rows _ hl]
  · intro h; simp [get_filtered_data, htr, h]
  · intro h hl
    simp [get_filtered_data, htr, h, filterRows, hnil t.rows _ hl]
  · intro h
    simp [get_filtered_data, tripFilteredTrips, htr, h]
  · intro h hl
    simp [get_filtered_data, tripFilteredTrips, htr, h, filterRows,
      hnil t.rows _ hl]
  · intro h1 h2
    simp [get_filtered_data, htr, h1, h2]

/-- Witness for C3's amended theorem: with both vehicle-side columns
absent, the Trip ID filter leaves the vehicle record set unchanged. -/
theorem filter_soft_degrade_witness :
    (get_filtered_data vNoCol tScenario "Trip ID" (some "T1")).1 = vNoCol :=
  (filter_soft_degrade vNoCol tScenario "T1" (by decide)).2.2.2.2
    (by decide) (by decide)

/-- C2 counterexample: the derived vehicle-id set is non-empty ("V9"),
yet the code keeps a vehicle record whose vehicle-id is not in that set
— the vehicle-id column is absent from the vehicle records, and the
code falls back to direct trip-id matching, which the claim does not
allow when the derived set is non-empty. -/
theorem tripId_filter_counterexample :
    derivedVehicleIds tCross "T1" = ["V9"] ∧
    (get_filtered_data vCross tCross "Trip ID" (some "T1")).1.rows =
      [[("vehicle_trip_tripId", "T1")]] ∧
    ∀ r ∈ (get_filtered_data vCross tCross "Trip ID" (some "T1")).1.rows,
      r.lookup "vehicle_vehicle_id" = none := by
  refine ⟨rfl, rfl, ?_⟩
  decide

/-- C2 (amended): for a non-empty Trip ID value the filter keeps trip
records whose trip-id equals the value (trip records pass through
unchanged when the trip-id column is absent), then derives the non-null
de-duplicated vehicle ids of the kept trip records; vehicle records are
narrowed to those whose vehicle-id is in the derived set when that set
is non-empty AND the vehicle-id column is present in the vehicle
records; otherwise they are narrowed to those whose own trip-id equals
the value, or pass through unchanged when that column too is absent. -/
theorem tripId_filter_correct (v t : DataFrame) (val : String)
    (hval : val ≠ "") :
    (∀ r, r ∈ (get_filtered_data v t "Trip ID" (some val)).2.rows ↔
      r ∈ t.rows ∧ ("tripUpdate_trip_tripId" ∈ t.cols →
        r.lookup "tripUpdate_trip_tripId" = some val)) ∧
    (∀ r, r ∈ (get_filtered_data v t "Trip ID" (some val)).1.rows ↔
      r ∈ v.rows ∧
        (if derivedVehicleIds t val ≠ [] ∧ "vehicle_vehicle_id" ∈ v.cols then
          ∃ x, r.lookup "vehicle_vehicle_id" = some x ∧
            x ∈ derivedVehicleIds t val
        else if "vehicle_trip_tripId" ∈ v.cols then
          r.lookup "vehicle_trip_tripId" = some val
        else True)) := by
  have htr : isTruthy (some val) = true := by simp [isTruthy, hval]
  rw [get_filtered_data_tripId_eq v t val htr]
  constructor
  · intro r
    by_cases hc : "tripUpdate_trip_tripId" ∈ t.cols
    · simp [tripFilteredTrips, hc, filterRows, List.mem_filter, rowEq]
    · simp [tripFilteredTrips, hc]
  · intro r
    by_cases h1 : derivedVehicleIds t val ≠ [] ∧ "vehicle_vehicle_id" ∈ v.cols
    · simp only [if_pos h1, filterRows, List.mem_filter]
      constructor
      · rintro ⟨hr, hp⟩
        refine ⟨hr, ?_⟩
        unfold rowIn at hp
        cases hl : r.lookup "vehicle_vehicle_id" with
        | none => rw [hl] at hp; exact absurd hp (by simp)
        | some y =>
          rw [hl] at hp
          exact ⟨y, rfl, by simpa using hp⟩
      · rintro ⟨hr, y, hy, hmem⟩
        exact ⟨hr, by simp [rowIn, hy, hmem]⟩
    · by_cases h2 : "vehicle_trip_tripId" ∈ v.cols
      · simp [if_neg h1, h2, filterRows, List.mem_filter, rowEq]
      · simp [if_neg h1, h2]

/-- Witness for C2's amended theorem: the claim's concrete scenario —
empty trip records, one vehicle record carrying trip "T1" — keeps that
vehicle record via the fallback path. -/
theorem tripId_filter_correct_witness :
    [("vehicle_vehicle_id", "101"), ("vehicle_trip_tripId", "T1")] ∈
      (get_filtered_data vScenario tScenario "Trip ID" (some "T1")).1.rows := by
  refine ((tripId_filter_correct vScenario tScenario "T1"
    (by decide)).2 _).mpr ⟨by decide, ?_⟩
  rw [if_neg (by decide), if_pos (by decide)]
  decide

/-- The elementwise `isin` test holds exactly when the cell is present
and its value belongs to the given set. -/
theorem rowIn_eq_true_iff (c : String) (vs : List String) (r : Record) :
    rowIn c vs r = true ↔ ∃ x, r.lookup c = some x ∧ x ∈ vs := by
  unfold rowIn
  cases hl : r.lookup c <;> simp

/-- C4 (spec-modelled): the multi-select filter applies the per-kind
logic with set-membership in place of equality (shown for the Vehicle
ID kind), then computes the bidirectional closure: vehicle records are
narrowed to those still referenced, directly or via trip id, by the
surviving trip records, and trip records to those whose vehicle appears
in the surviving vehicle records; closure on a side is skipped when the
cross-referenced column is absent while that side's source record set
was non-empty. -/
theorem multi_filter_closure (v t : DataFrame) (kind : String)
    (values : List String) (hne : values ≠ []) :
    (∀ r, r ∈ (get_filtered_data_multi v t kind values).1.rows ↔
      r ∈ (perKindMulti v t kind values).1.rows ∧
        ((("tripUpdate_vehicle_id" ∉ t.cols ∧
            "tripUpdate_trip_tripId" ∉ t.cols) ∧ v.rows ≠ []) ∨
          (rowIn "vehicle_vehicle_id"
              (idsOf (perKindMulti v t kind values).2 "tripUpdate_vehicle_id") r ||
            rowIn "vehicle_trip_tripId"
              (idsOf (perKindMulti v t kind values).2 "tripUpdate_trip_tripId") r)
            = true)) ∧
    (∀ r, r ∈ (get_filtered_data_multi v t kind values).2.rows ↔
      r ∈ (perKindMulti v t kind values).2.rows ∧
        ((("tripUpdate_vehicle_id" ∉ t.cols ∨ "vehicle_vehicle_id" ∉ v.cols) ∧
            t.rows ≠ []) ∨
          rowIn "tripUpdate_vehicle_id"
            (idsOf (perKindMulti v t kind values).1 "vehicle_vehicle_id") r
            = true)) ∧
    (kind = "Vehicle ID" →
      (∀ r, r ∈ (perKindMulti v t kind values).1.rows ↔
        r ∈ v.rows ∧ ("vehicle_vehicle_id" ∈ v.cols →
          ∃ x, r.lookup "vehicle_vehicle_id" = some x ∧ x ∈ values)) ∧
      (∀ r, r ∈ (perKindMulti v t kind values).2.rows ↔
        r ∈ t.rows ∧ ("tripUpdate_vehicle_id" ∈ t.cols →
          ∃ x, r.lookup "tripUpdate_vehicle_id" = some x ∧ x ∈ values))) := by
  have hmc : get_filtered_data_multi v t kind values =
      multiClosure v t (perKindMulti v t kind values).1
        (perKindMulti v t kind values).2 := by
    simp [get_filtered_data_multi, hne]
  refine ⟨?_, ?_, ?_⟩
  · intro r
    rw [hmc]
    dsimp only [multiClosure]
    by_cases hskip : ("tripUpdate_vehicle_id" ∉ t.cols ∧
        "tripUpdate_trip_tripId" ∉ t.cols) ∧ v.rows ≠ []
    · rw [if_pos hskip]
      simp [hskip]
    · rw [if_neg hskip]
      simp only [filterRows, List.mem_filter]
      constructor
      · rintro ⟨hr, hp⟩
        exact ⟨hr, Or.inr hp⟩
      · rintro ⟨hr, hskip' | hp⟩
        · exact absurd hskip' hskip
        · exact ⟨hr, hp⟩
  · intro r
    rw [hmc]
    dsimp only [multiClosure]
    by_cases hskip : ("tripUpdate_vehicle_id" ∉ t.cols ∨
        "vehicle_vehicle_id" ∉ v.cols) ∧ t.rows ≠ []
    · rw [if_pos hskip]
      simp [hskip]
    · rw [if_neg hskip]
      simp only [filterRows, List.mem_filter]
      constructor
      · rintro ⟨hr, hp⟩
        exact ⟨hr, Or.inr hp⟩
      · rintro ⟨hr, hskip' | hp⟩
        · exact absurd hskip' hskip
        · exact ⟨hr, hp⟩
  · intro hk
    subst hk
    constructor
    · intro r
      by_cases hc : "vehicle_vehicle_id" ∈ v.cols
      · simp [perKindMulti, hc, filterRows, List.mem_filter, rowIn_eq_true_iff]
      · simp [perKindMulti, hc]
    · intro r
      by_cases hc : "tripUpdate_vehicle_id" ∈ t.cols
      · simp [perKindMulti, hc, filterRows, List.mem_filter, rowIn_eq_true_iff]
      · simp [perKindMulti, hc]

/-- Witness for C4: vehicle "101" survives the multi-select Vehicle ID
filter and the closure, because a surviving trip record references it. -/
theorem multi_filter_closure_witness :
    [("vehicle_vehicle_id", "101"), ("vehicle_trip_tripId", "T1")] ∈
      (get_filtered_data_multi vScenario tKeep "Vehicle ID" ["101"]).1.rows := by
  refine ((multi_filter_closure vScenario tKeep "Vehicle ID" ["101"]
    (by decide)).1 _).mpr ⟨?_, Or.inr ?_⟩ <;> decide

/-- Helper: a successful all-or-nothing decode covers every frame. -/
theorem decodeEntities_length :
    ∀ (l : List (List Nat)) (es : List FeedEntity),
      decodeEntities l = some es → es.length = l.length
  | [], es, h => by
    simp only [decodeEntities, Option.some.injEq] at h
    simp [← h]
  | f :: fs, es, h => by
    simp only [decodeEntities] at h
    cases hpe : parseEntityBytes f with
    | none => rw [hpe] at h; exact absurd h (by simp)
    | some e =>
      rw [hpe] at h
      cases hd : decodeEntities fs with
      | none => rw [hd] at h; exact absurd h (by simp)
      | some es' =>
        rw [hd] at h
        have h' : e :: es' = es := by simpa using h
        simp [← h', decodeEntities_length fs es' hd]

/-- Helper: one malformed frame fails the all-or-nothing decode. -/
theorem decodeEntities_none :
    ∀ (l : List (List Nat)) (f : List Nat), f ∈ l →
      parseEntityBytes f = none → decodeEntities l = none
  | [], _, hf, _ => by simp at hf
  | g :: gs, f, hf, hnone => by
    rcases List.mem_cons.mp hf with rfl | hf'
    · simp [decodeEntities, hnone]
    · cases hg : parseEntityBytes g <;>
        simp [decodeEntities, hg, decodeEntities_none gs f hf' hnone]

/-- C9 (spec-modelled): decoding is atomic.  Parsing the encoded
message equals the all-or-nothing decode of every entity frame; if any
single frame inside an otherwise valid stream is malformed the whole
decode returns the error result (`none`), and a successful decode
covers every frame — never a partially-populated record set. -/
theorem decode_atomic (frames : List (List Nat)) :
    open_gtfs_realtime_from_url (some (encodeMessage frames)) =
      decodeEntities frames ∧
    ((∃ f ∈ frames, parseEntityBytes f = none) →
      open_gtfs_realtime_from_url (some (encodeMessage frames)) = none) ∧
    (∀ es, open_gtfs_realtime_from_url (some (encodeMessage frames)) = some es →
      es.length = frames.length) := by
  have hmain : parseFeedMessage (encodeMessage frames) =
      decodeEntities frames := by
    induction frames with
    | nil => simp [encodeMessage, parseFeedMessage, decodeEntities]
    | cons f fs ih =>
      have henc : encodeMessage (f :: fs) =
          f.length :: (f ++ encodeMessage fs) := by
        simp [encodeMessage]
      rw [henc]
      unfold parseFeedMessage
      have hle : f.length ≤ (f ++ encodeMessage fs).length := by
        simp
      rw [if_pos hle]
      have htake : (f ++ encodeMessage fs).take f.length = f := by
        simp [List.take_append]
      have hdrop : (f ++ encodeMessage fs).drop f.length = encodeMessage fs := by
        simp [List.drop_append]
      rw [htake, hdrop, ih]
      cases hpe : parseEntityBytes f <;> simp [hpe, decodeEntities]
  refine ⟨by simpa [open_gtfs_realtime_from_url] using hmain, ?_, ?_⟩
  · rintro ⟨f, hf, hnone⟩
    simp [open_gtfs_realtime_from_url, hmain,
      decodeEntities_none frames f hf hnone]
  · intro es hes
    simp only [open_gtfs_realtime_from_url, hmain] at hes
    exact decodeEntities_length frames es hes

/-- Witness for C9: a stream whose second entity frame is malformed
(tag byte 9) fails the whole decode. -/
theorem decode_atomic_witness :
    open_gtfs_realtime_from_url (some (encodeMessage [[1, 7], [9, 9]])) = none :=
  (decode_atomic [[1, 7], [9, 9]]).2.1 ⟨[9, 9], by decide, rfl⟩

theorem parseStr_cons_quote (l : List Char) : parseStr ('"' :: l) = some ([], l) := by
  conv_lhs => rw [parseStr.eq_def]
  simp

theorem parseStr_cons_esc (e : Char) (l : List Char) (he : e = '"' ∨ e = '\\') :
    parseStr ('\\' :: e :: l) = (parseStr l).map (fun p => (e :: p.1, p.2)) := by
  conv_lhs => rw [parseStr.eq_def]
  simp [he]

theorem parseStr_cons_other (c : Char) (l : List Char) (h1 : ¬c = '"')
    (h2 : ¬c = '\\') :
    parseStr (c :: l) = (parseStr l).map (fun p => (c :: p.1, p.2)) := by
  conv_lhs => rw [parseStr.eq_def]
  simp [h1, h2]

/-- Printing a string body and parsing it back returns the body and
the untouched remainder. -/
theorem parseStr_round : ∀ (s rest : List Char),
    parseStr (escapeChars s ++ '"' :: rest) = some (s, rest)
  | [], rest => by simp [escapeChars, parseStr_cons_quote]
  | c :: s, rest => by
    by_cases h : c = '"' ∨ c = '\\'
    · have he : escapeChars (c :: s) = '\\' :: c :: escapeChars s := by
        simp [escapeChars, escapeChar, h]
      rw [he, List.cons_append, List.cons_append,
        parseStr_cons_esc c _ h, parseStr_round s rest]
      rfl
    · push_neg at h
      have he : escapeChars (c :: s) = c :: escapeChars s := by
        simp [escapeChars, escapeChar, h.1, h.2]
      rw [he, List.cons_append, parseStr_cons_other c _ h.1 h.2,
        parseStr_round s rest]
      rfl

theorem parseValFuel_quote (n : Nat) (l : List Char) :
    parseValFuel (n + 1) ('"' :: l) =
      (parseStr l).map (fun p => (JVal.str ⟨p.1⟩, p.2)) := by
  conv_lhs => rw [parseValFuel.eq_def]
  simp

theorem parseValFuel_brace (n : Nat) (l : List Char) :
    parseValFuel (n + 1) ('\x7b' :: l) =
      (parseObjFuel n l).map (fun p => (JVal.obj p.1, p.2)) := by
  conv_lhs => rw [parseValFuel.eq_def]
  simp

theorem parseObjFuel_close (n : Nat) (l : List Char) :
    parseObjFuel (n + 1) ('\x7d' :: l) = some (.nil, l) := by
  conv_lhs => rw [parseObjFuel.eq_def]
  simp

theorem parseObjFuel_quote (n : Nat) (l : List Char) :
    parseObjFuel (n + 1) ('"' :: l) =
      match parseStr l with
      | none => none
      | some (k, r1) =>
        match r1 with
        | ':' :: ' ' :: r2 =>
          match parseValFuel n r2 with
          | none => none
          | some (v, r3) =>
            match r3 with
            | '\x7d' :: r4 => some (.cons ⟨k⟩ v .nil, r4)
            | ',' :: ' ' :: r4 =>
              (parseObjFuel n r4).map (fun p => (JObj.cons ⟨k⟩ v p.1, p.2))
            | _ => none
        | _ => none := by
  conv_lhs => rw [parseObjFuel.eq_def]
  simp

theorem mVal_pos : ∀ v : JVal, 1 ≤ mVal v
  | .str _ => Nat.le_refl 1
  | .obj o => by simp only [mVal]; omega

theorem mObj_pos : ∀ o : JObj, 1 ≤ mObj o
  | .nil => Nat.le_refl 1
  | .cons _ v rest => by simp only [mObj]; omega

mutual

/-- Parsing a printed value with enough fuel returns the value and the
untouched remainder. -/
theorem parseValFuel_round : ∀ (n : Nat) (v : JVal) (rest : List Char),
    mVal v ≤ n → parseValFuel n (dumpVal v ++ rest) = some (v, rest)
  | 0, v, _, h => absurd h (by have := mVal_pos v; omega)
  | n + 1, .str s, rest, _ => by
    have hinput : dumpVal (JVal.str s) ++ rest =
        '"' :: (escapeChars s.data ++ '"' :: rest) := by
      simp [dumpVal]
    rw [hinput, parseValFuel_quote, parseStr_round]
    rfl
  | n + 1, .obj o, rest, h => by
    have ho : mObj o ≤ n := by
      simp only [mVal] at h
      omega
    have hinput : dumpVal (JVal.obj o) ++ rest =
        '\x7b' :: (dumpObjInner o ++ '\x7d' :: rest) := by
      simp [dumpVal]
    rw [hinput, parseValFuel_brace, parseObjFuel_round n o rest ho]
    rfl

/-- Parsing printed object members with enough fuel returns the object
and the untouched remainder. -/
theorem parseObjFuel_round : ∀ (n : Nat) (o : JObj) (rest : List Char),
    mObj o ≤ n →
    parseObjFuel n (dumpObjInner o ++ '\x7d' :: rest) = some (o, rest)
  | 0, o, _, h => absurd h (by have := mObj_pos o; omega)
  | _ + 1, .nil, rest, _ => by
    simp only [dumpObjInner, List.nil_append]
    exact parseObjFuel_close _ rest
  | n + 1, .cons k v .nil, rest, h => by
    have hv : mVal v ≤ n := by
      simp only [mObj] at h
      omega
    have hinput : dumpObjInner (JObj.cons k v .nil) ++ '\x7d' :: rest =
        '"' :: (escapeChars k.data ++ '"' :: ':' :: ' ' ::
          (dumpVal v ++ '\x7d' :: rest)) := by
      simp [dumpObjInner]
    rw [hinput, parseObjFuel_quote, parseStr_round]
    simp [parseValFuel_round n v ('\x7d' :: rest) hv]
  | n + 1, .cons k v (.cons k2 v2 o2), rest, h => by
    have hv : mVal v ≤ n := by
      simp only [mObj] at h
      omega
    have hrest : mObj (JObj.cons k2 v2 o2) ≤ n := by
      have h1 := mVal_pos v
      simp only [mObj] at h ⊢
      omega
    have hinput :
        dumpObjInner (JObj.cons k v (JObj.cons k2 v2 o2)) ++ '\x7d' :: rest =
          '"' :: (escapeChars k.data ++ '"' :: ':' :: ' ' ::
            (dumpVal v ++ ',' :: ' ' ::
              (dumpObjInner (JObj.cons k2 v2 o2) ++ '\x7d' :: rest))) := by
      simp [dumpObjInner]
    rw [hinput, parseObjFuel_quote, parseStr_round]
    simp [parseValFuel_round n v
        (',' :: ' ' :: (dumpObjInner (JObj.cons k2 v2 o2) ++ '\x7d' :: rest)) hv,
      parseObjFuel_round n (JObj.cons k2 v2 o2) rest hrest]

end

mutual

/-- The node count of a value never exceeds its print length. -/
theorem mVal_le_dump_length : ∀ v : JVal, mVal v ≤ (dumpVal v).length
  | .str s => by
    simp only [mVal, dumpVal, List.length_cons, List.length_append]
    omega
  | .obj o => by
    have h := mObj_le_dumpInner_length o
    simp only [mVal, dumpVal, List.length_cons, List.length_append]
    omega

/-- The node count of an object never exceeds its print length plus
one. -/
theorem mObj_le_dumpInner_length : ∀ o : JObj,
    mObj o ≤ (dumpObjInner o).length + 1
  | .nil => by simp [mObj, dumpObjInner]
  | .cons k v .nil => by
    have h1 := mVal_le_dump_length v
    simp only [mObj, dumpObjInner, List.length_cons, List.length_append]
    omega
  | .cons k v (.cons k2 v2 o2) => by
    have h1 := mVal_le_dump_length v
    have h2 := mObj_le_dumpInner_length (JObj.cons k2 v2 o2)
    simp only [mObj] at h2 ⊢
    simp only [dumpObjInner, List.length_cons, List.length_append]
    omega

end

/-- Deserializing the reserved column's serialization of an entity
yields the entity back. -/
theorem reconstruct_json_dumps (o : JObj) :
    reconstructEntity (json_dumps o) = some o := by
  have hm : mVal (JVal.obj o) ≤ (dumpVal (JVal.obj o)).length + 1 := by
    have := mVal_le_dump_length (JVal.obj o)
    omega
  have hparse := parseValFuel_round ((dumpVal (JVal.obj o)).length + 1)
    (JVal.obj o) [] hm
  rw [List.append_nil] at hparse
  unfold reconstructEntity json_loads
  have hdata : (json_dumps o).data = dumpVal (JVal.obj o) := rfl
  rw [hdata, hparse]

theorem lookup_map_replace : ∀ (d : List (String × String)) (k v : String),
    d.any (fun p => p.1 == k) = true →
    List.lookup k (d.map (fun p => if p.1 = k then (k, v) else p)) = some v
  | [], _, _, h => by simp at h
  | p :: d, k, v, h => by
    by_cases hp : p.1 = k
    · rw [List.map_cons, if_pos hp]
      simp [List.lookup]
    · have h' : d.any (fun q => q.1 == k) = true := by
        simp only [List.any_cons, Bool.or_eq_true, beq_iff_eq] at h
        rcases h with h | h
        · exact absurd h hp
        · simpa using h
      have hb : (k == p.1) = false :=
        beq_eq_false_iff_ne.mpr fun he => hp he.symm
      rw [List.map_cons, if_neg hp]
      simp [List.lookup, hb, lookup_map_replace d k v h']

theorem lookup_eq_none_of_any_false : ∀ (d : List (String × String)) (k : String),
    d.any (fun p => p.1 == k) = false → List.lookup k d = none
  | [], _, _ => rfl
  | p :: d, k, h => by
    simp only [List.any_cons, Bool.or_eq_false_iff, beq_eq_false_iff_ne] at h
    have hb : (k == p.1) = false :=
      beq_eq_false_iff_ne.mpr fun he => h.1 he.symm
    simp [List.lookup, hb, lookup_eq_none_of_any_false d k (by simpa using h.2)]

theorem lookup_append_single : ∀ (d : List (String × String)) (k v : String),
    List.lookup k d = none → List.lookup k (d ++ [(k, v)]) = some v
  | [], k, v, _ => by simp [List.lookup]
  | p :: d, k, v, h => by
    by_cases hkp : k = p.1
    · have hb : (k == p.1) = true := beq_iff_eq.mpr hkp
      simp [List.lookup, hb] at h
    · have hb : (k == p.1) = false := beq_eq_false_iff_ne.mpr hkp
      simp only [List.cons_append]
      simp only [List.lookup, hb] at h ⊢
      exact lookup_append_single d k v h

/-- Dict assignment makes the assigned value the one found under the
key. -/
theorem lookup_dictInsert (d : List (String × String)) (k v : String) :
    List.lookup k (dictInsert d k v) = some v := by
  unfold dictInsert
  by_cases hany : d.any (fun p => p.1 == k) = true
  · rw [if_pos hany]
    exact lookup_map_replace d k v hany
  · rw [if_neg hany]
    exact lookup_append_single d k v
      (lookup_eq_none_of_any_false d k (Bool.eq_false_iff.mpr hany))

/-- C5: each row of the decoded frame stores, under the reserved
`original_json` column, the serialization of the same pre-flattening
entity structure that was flattened into that row, and deserializing
that reserved field reconstructs the entity's nested structure exactly
(same keys, same scalar values, same nesting). -/
theorem original_json_roundtrip (feed : List JObj) (e : JObj) (h : e ∈ feed) :
    ∃ r ∈ (protobuf_to_dataframe feed).rows,
      List.lookup "original_json" r = some (json_dumps e) ∧
      reconstructEntity (json_dumps e) = some e := by
  refine ⟨dictInsert (flatten_dict e) "original_json" (json_dumps e), ?_, ?_,
    reconstruct_json_dumps e⟩
  · simp only [protobuf_to_dataframe]
    exact List.mem_map.mpr ⟨e, h, rfl⟩
  · exact lookup_dictInsert _ _ _

/-- Witness for C5 at a concrete nested entity. -/
theorem original_json_roundtrip_witness :
    ∃ r ∈ (protobuf_to_dataframe [entityExample]).rows,
      List.lookup "original_json" r = some (json_dumps entityExample) ∧
      reconstructEntity (json_dumps entityExample) = some entityExample :=
  original_json_roundtrip [entityExample] entityExample (by simp)

theorem joinKey_cons_cons (a b : String) (p : List String) :
    joinKey (a :: b :: p) = a ++ "_" ++ joinKey (b :: p) := by
  rw [joinKey.eq_def]

theorem joinC_cons_cons (a b : List Char) (p : List (List Char)) :
    joinC (a :: b :: p) = a ++ '_' :: joinC (b :: p) := by
  rw [joinC.eq_def]

theorem append_underscore_ne (a b : String) : a ++ "_" ++ b ≠ "" := by
  intro h
  have hl := congrArg String.length h
  simp [String.length_append] at hl
  exact absurd hl.1.2 (by decide)

theorem extKey_append : ∀ (p : List String) (x y : String),
    extKey (x ++ y) p = x ++ extKey y p
  | [], _, _ => rfl
  | k :: p, x, y => by
    show extKey ((x ++ y) ++ "_" ++ k) p = x ++ extKey (y ++ "_" ++ k) p
    have hassoc : (x ++ y) ++ "_" ++ k = x ++ (y ++ "_" ++ k) := by
      simp [String.append_assoc]
    rw [hassoc]
    exact extKey_append p x (y ++ "_" ++ k)

theorem joinKey_cons_eq_extKey : ∀ (p : List String) (a : String),
    joinKey (a :: p) = extKey a p
  | [], _ => rfl
  | b :: p, a => by
    rw [joinKey_cons_cons, joinKey_cons_eq_extKey p b,
      ← extKey_append p (a ++ "_") b]
    rfl

mutual

/-- `flatten_dict`'s item recursion below the top level emits, for each
leaf at relative path `q`, the parent key extended along `q`. -/
theorem flattenVal_leaves : ∀ (v : JVal) (key : String), key ≠ "" →
    flattenVal key v = (leavesVal v).map (fun q => (extKey key q.1, q.2))
  | .str _, _, _ => by simp [flattenVal, leavesVal, extKey]
  | .obj o, key, hk => by
    simp only [flattenVal, leavesVal]
    exact flattenObj_leaves o key hk

theorem flattenObj_leaves : ∀ (o : JObj) (parent : String), parent ≠ "" →
    flattenObj parent o = (leavesObj o).map (fun q => (extKey parent q.1, q.2))
  | .nil, _, _ => by simp [flattenObj, leavesObj]
  | .cons k v rest, parent, hp => by
    simp only [flattenObj, leavesObj, if_neg hp]
    rw [List.map_append, List.map_map,
      flattenVal_leaves v (parent ++ "_" ++ k) (append_underscore_ne parent k),
      flattenObj_leaves rest parent hp]
    rfl

end

/-- `flatten_dict`'s item recursion, from the top: every leaf at nested
path `q` is emitted under the flat key joining `q` with "_". -/
theorem flattenObj_top : ∀ o : JObj, goodKeysObj o = true →
    flattenObj "" o = (leavesObj o).map (fun q => (joinKey q.1, q.2))
  | .nil, _ => by simp [flattenObj, leavesObj]
  | .cons k v rest, h => by
    have hsplit : (¬k = "" ∧ goodKeysVal v = true) ∧
        goodKeysObj rest = true := by
      simpa [goodKeysObj, Bool.and_eq_true] using h
    have hk : k ≠ "" := hsplit.1.1
    simp only [flattenObj, leavesObj, eq_self_iff_true, if_true]
    rw [List.map_append, List.map_map, flattenVal_leaves v k hk,
      flattenObj_top rest hsplit.2]
    congr 1
    exact List.map_congr_left fun q _ => by
      simp [Function.comp, joinKey_cons_eq_extKey]

theorem append_cons_underscore_inj :
    ∀ (a b x y : List Char), '_' ∉ a → '_' ∉ b →
      a ++ '_' :: x = b ++ '_' :: y → a = b ∧ x = y
  | [], [], _, _, _, _, h => by
    simp only [List.nil_append, List.cons.injEq] at h
    exact ⟨rfl, h.2⟩
  | [], c :: b, x, y, _, hb, h => by
    simp only [List.nil_append, List.cons_append, List.cons.injEq] at h
    obtain ⟨h1, _⟩ := h
    subst h1
    exact absurd (List.mem_cons_self _ _) hb
  | c :: a, [], x, y, ha, _, h => by
    simp only [List.nil_append, List.cons_append, List.cons.injEq] at h
    obtain ⟨h1, _⟩ := h
    subst h1
    exact absurd (List.mem_cons_self _ _) ha
  | c :: a, d :: b, x, y, ha, hb, h => by
    simp only [List.cons_append, List.cons.injEq] at h
    obtain ⟨h1, h2⟩ := h
    have ha' : '_' ∉ a := fun hm => ha (List.mem_cons_of_mem _ hm)
    have hb' : '_' ∉ b := fun hm => hb (List.mem_cons_of_mem _ hm)
    obtain ⟨hab, hxy⟩ := append_cons_underscore_inj a b x y ha' hb' h2
    exact ⟨by rw [h1, hab], hxy⟩

/-- Joining non-empty, underscore-free components with "_" is
injective. -/
theorem joinC_inj : ∀ (p q : List (List Char)),
    (∀ x ∈ p, x ≠ [] ∧ '_' ∉ x) → (∀ x ∈ q, x ≠ [] ∧ '_' ∉ x) →
    joinC p = joinC q → p = q
  | [], [], _, _, _ => rfl
  | [], b :: q, _, hq, h => by
    cases q with
    | nil =>
      simp only [joinC] at h
      exact absurd h.symm (hq b (List.mem_cons_self _ _)).1
    | cons c q' =>
      rw [joinC_cons_cons] at h
      simp only [joinC] at h
      exact absurd h.symm (by simp)
  | a :: p, [], hp, _, h => by
    cases p with
    | nil =>
      simp only [joinC] at h
      exact absurd h (hp a (List.mem_cons_self _ _)).1
    | cons c p' =>
      rw [joinC_cons_cons] at h
      simp only [joinC] at h
      exact absurd h (by simp)
  | a :: p, b :: q, hp, hq, h => by
    cases p with
    | nil =>
      cases q with
      | nil =>
        simp only [joinC] at h
        rw [h]
      | cons d q' =>
        rw [joinC_cons_cons] at h
        simp only [joinC] at h
        have hm : '_' ∈ a := by
          rw [h]
          exact List.mem_append_right _ (List.mem_cons_self _ _)
        exact absurd hm (hp a (List.mem_cons_self _ _)).2
    | cons c p' =>
      cases q with
      | nil =>
        rw [joinC_cons_cons] at h
        simp only [joinC] at h
        have hm : '_' ∈ b := by
          rw [← h]
          exact List.mem_append_right _ (List.mem_cons_self _ _)
        exact absurd hm (hq b (List.mem_cons_self _ _)).2
      | cons d q' =>
        rw [joinC_cons_cons, joinC_cons_cons] at h
        obtain ⟨hab, hrest⟩ := append_cons_underscore_inj a b _ _
          (hp a (List.mem_cons_self _ _)).2 (hq b (List.mem_cons_self _ _)).2 h
        have hp' : ∀ x ∈ c :: p', x ≠ [] ∧ '_' ∉ x := fun x hx =>
          hp x (List.mem_cons_of_mem _ hx)
        have hq' : ∀ x ∈ d :: q', x ≠ [] ∧ '_' ∉ x := fun x hx =>
          hq x (List.mem_cons_of_mem _ hx)
        rw [hab, joinC_inj (c :: p') (d :: q') hp' hq' hrest]

theorem joinKey_data : ∀ p : List String,
    (joinKey p).data = joinC (p.map String.data)
  | [] => rfl
  | [_] => rfl
  | a :: b :: p => by
    rw [joinKey_cons_cons, List.map_cons, List.map_cons, joinC_cons_cons,
      String.data_append (a ++ "_") (joinKey (b :: p)),
      String.data_append a "_", joinKey_data (b :: p), List.map_cons]
    simp

/-- Joining non-empty, underscore-free path components with "_" is
injective at the string level. -/
theorem joinKey_inj (p q : List String)
    (hp : ∀ x ∈ p, x ≠ "" ∧ '_' ∉ x.data)
    (hq : ∀ x ∈ q, x ≠ "" ∧ '_' ∉ x.data)
    (h : joinKey p = joinKey q) : p = q := by
  have hd : joinC (p.map String.data) = joinC (q.map String.data) := by
    rw [← joinKey_data, ← joinKey_data, h]
  have hmap := joinC_inj (p.map String.data) (q.map String.data)
    (fun x hx => by
      rcases List.mem_map.mp hx with ⟨s, hs, rfl⟩
      exact ⟨fun hnil => (hp s hs).1 (String.ext hnil), (hp s hs).2⟩)
    (fun x hx => by
      rcases List.mem_map.mp hx with ⟨s, hs, rfl⟩
      exact ⟨fun hnil => (hq s hs).1 (String.ext hnil), (hq s hs).2⟩)
    hd
  exact List.map_injective_iff.mpr (fun a b hab => String.ext hab) hmap

/-- C6: flattening emits, for each leaf scalar at nested path `a.b.c`,
the flat key `a_b_c` (components joined by the fixed separator "_"),
and on schema paths — non-empty components without underscores, as the
GTFS-Realtime camelCase field names are — the flat keys of two distinct
paths are distinct. -/
theorem flatten_keys (o : JObj) (h : goodKeysObj o = true) :
    flattenObj "" o = (leavesObj o).map (fun q => (joinKey q.1, q.2)) ∧
    ∀ p q : List String,
      (∀ x ∈ p, x ≠ "" ∧ '_' ∉ x.data) →
      (∀ x ∈ q, x ≠ "" ∧ '_' ∉ x.data) →
      p ≠ q → joinKey p ≠ joinKey q :=
  ⟨flattenObj_top o h, fun p q hp hq hne hj => hne (joinKey_inj p q hp hq hj)⟩

/-- Witness for C6 at a concrete nested entity. -/
theorem flatten_keys_witness :
    flattenObj "" entityExample =
      (leavesObj entityExample).map (fun q => (joinKey q.1, q.2)) :=
  (flatten_keys entityExample (by decide)).1

end GTFSInspector
